import Mathlib

/-!
Verification development for the mobx-binder data-binding core
(src/Model.js: the Model and Store classes).

The JavaScript source is shallowly embedded: JS values are the inductive
type Value (null, undefined, numbers, strings, booleans, arrays and plain
objects); a plain object is an association list of string keys in insertion
order, assignment to an existing key replaces its value in place while a
new key is appended at the end, exactly as JS property assignment behaves
for the objects built here.  The process-global lodash uniqueId counter is
threaded explicitly as a Nat.  Asynchronous operations are embedded by a
settle function taking the outcome of the network call, since all state
changes happen synchronously in the then/catch handlers.
-/

/-- Embedded JavaScript values, restricted to the shapes the library
manipulates: null, undefined, integers (all identifiers in the payloads are
integers), strings, booleans, arrays and plain objects. -/
inductive Value : Type where
  | vnull : Value
  | vundefined : Value
  | vint : Int → Value
  | vstr : String → Value
  | vbool : Bool → Value
  | vlist : List Value → Value
  | vobj : List (String × Value) → Value
deriving Repr

/-- A JS plain object: keys with values, in insertion order. -/
abbrev Obj : Type := List (String × Value)

/-- Lookup in an association list (JS property read, none = undefined). -/
def alGet {α : Type} : List (String × α) → String → Option α
  | [], _ => none
  | (k, v) :: rest, key => if k = key then some v else alGet rest key

/-- JS property assignment on a plain object: replace the value at an
existing key in place, otherwise append the key at the end. -/
def alSet {α : Type} : List (String × α) → String → α → List (String × α)
  | [], key, v => [(key, v)]
  | (k, w) :: rest, key, v =>
      if k = key then (k, v) :: rest else (k, w) :: alSet rest key v

/-- JS truthiness for embedded values (arrays and objects are truthy). -/
def truthy : Value → Bool
  | .vnull => false
  | .vundefined => false
  | .vint n => n != 0
  | .vstr s => s != ""
  | .vbool b => b
  | .vlist _ => true
  | .vobj _ => true

/-- lodash isPlainObject on embedded values. -/
def isPlainObjectV : Value → Bool
  | .vobj _ => true
  | _ => false

mutual

/-- Strict structural equality between embedded values (lodash isEqual on
the scalar and array shapes used here; object comparison is positional,
which is only ever applied to scalar identifier values in this code). -/
def veq : Value → Value → Bool
  | .vnull, .vnull => true
  | .vundefined, .vundefined => true
  | .vint a, .vint b => a == b
  | .vstr a, .vstr b => a == b
  | .vbool a, .vbool b => a == b
  | .vlist a, .vlist b => veqList a b
  | .vobj a, .vobj b => veqObj a b
  | _, _ => false

/-- Elementwise strict equality of arrays. -/
def veqList : List Value → List Value → Bool
  | [], [] => true
  | a :: as_, b :: bs => veq a b && veqList as_ bs
  | _, _ => false

/-- Positional field equality of objects. -/
def veqObj : List (String × Value) → List (String × Value) → Bool
  | [], [] => true
  | (k1, v1) :: as_, (k2, v2) :: bs => k1 == k2 && veq v1 v2 && veqObj as_ bs
  | _, _ => false

end

/-- JS loose equality (==) on the value fragment this library compares:
numbers, strings (with numeric coercion between them), null and undefined.
Used by Store.get, source line 698. -/
def veqLoose : Value → Value → Bool
  | .vint a, .vint b => a == b
  | .vstr a, .vstr b => a == b
  | .vint a, .vstr s => s.toInt? == some a
  | .vstr s, .vint a => s.toInt? == some a
  | .vbool a, .vbool b => a == b
  | .vnull, .vnull => true
  | .vnull, .vundefined => true
  | .vundefined, .vnull => true
  | .vundefined, .vundefined => true
  | _, _ => false

/-- JS name.startsWith of the underscore, on the first character. -/
def startsWithUnderscore (s : String) : Bool :=
  match s.toList with
  | '_' :: _ => true
  | _ => false

/-- Model of an ASCII uppercase test, as lodash word splitting sees it. -/
def isUpperAZ (c : Char) : Bool := 'A' ≤ c && c ≤ 'Z'

/-- One character of lodash snakeCase on a camelCase identifier: an
uppercase letter starts a new word, so it is preceded by an underscore and
lowercased.  This models the external lodash snakeCase on the alphabetic
camelCase identifiers used for attribute and relation names. -/
def snakeCaseChar (c : Char) : List Char :=
  if isUpperAZ c then ['_', c.toLower] else [c]

/-- Model of lodash snakeCase restricted to alphabetic camelCase
identifiers (the shape of attribute and relation names in this library). -/
def snakeCase (s : String) : String :=
  String.mk (s.toList.flatMap snakeCaseChar)

/-- Character scan of the snake-to-camel conversion: an underscore is
dropped and the following character uppercased. -/
def snakeToCamelChars : List Char → List Char
  | [] => []
  | '_' :: c :: rest => c.toUpper :: snakeToCamelChars rest
  | c :: rest => c :: snakeToCamelChars rest

/-- Modelled from the spec: the repository imports snakeToCamel from
src/snakeToCamel, whose source file is not part of the sources given; the
spec states the internal/backend field-name conversion is mechanical and
bidirectional, so this is the inverse scan of snakeCase: drop each
underscore and uppercase the following character.  Dots of relation paths
pass through unchanged. -/
def snakeToCamel (s : String) : String :=
  String.mk (snakeToCamelChars s.toList)

/-- Model of lodash uniqueId (source line 18): a process-global counter,
threaded explicitly; each call increments it and returns the new value
(parseInt of its decimal string). -/
def uniqueIdNext (c : Nat) : Nat × Nat := (c + 1, c + 1)

/-- generateNegativeId, source lines 23-25: the negation of the next
uniqueId counter value. -/
def generateNegativeId (c : Nat) : Int × Nat :=
  (-(Int.ofNat (uniqueIdNext c).1), (uniqueIdNext c).2)

/-- The result of the k-th call (0-based) to generateNegativeId in a
process whose uniqueId counter starts at c0: value and counter after. -/
def genSeq (c0 : Nat) : Nat → Int × Nat
  | 0 => generateNegativeId c0
  | k + 1 => generateNegativeId (genSeq c0 k).2

/-- Splitting of a relation path at its first dot, modelling the regex
match aRel.match of ([^.]+)\.(.+) at source line 93: an unanchored search,
so leading dots are skipped; the portion before the first following dot is
group 1 and everything after that dot (nonempty) is group 2; no match
yields none. -/
def relSplit (s : String) : Option (String × String) :=
  let cs := (s.toList).dropWhile (fun c => c == '.')
  let g1 := cs.takeWhile (fun c => c != '.')
  let rest := cs.dropWhile (fun c => c != '.')
  match g1, rest with
  | [], _ => none
  | _, [] => none
  | _, [_] => none
  | _, _ :: r2 => some (String.mk g1, String.mk r2)

/-- The relModels accumulation of Model.__parseRelations, source lines
89-107.  An entry value none is JS null; a list entry none is a null
element of the accumulated array.  For each path: the part before the
first dot is the current relation; otherRels is null for an undotted path,
else the one-element array of the remainder; if the key already holds a
truthy (array) value the code appends otherRels via Array.concat - and
concat of null appends a null element - otherwise it stores otherRels.
The subsequent mapValues instantiation (source lines 108-128) passes each
accumulated array as the nested relation paths of the instantiated
relation; it requires a runtime class table and is not needed by the
grouping claims, so only the grouping is embedded. -/
def parseRelationsModels (activeRelations : List String) :
    List (String × Option (List (Option String))) :=
  activeRelations.foldl
    (fun acc aRel =>
      let pieces := relSplit aRel
      let currentRel := match pieces with
        | some p => p.1
        | none => aRel
      let otherRels : Option (List (Option String)) := match pieces with
        | some p => some [some p.2]
        | none => none
      let newVal : Option (List (Option String)) :=
        match alGet acc currentRel with
        | some (some l) =>
            some (l ++ (match otherRels with
              | none => [none]
              | some l2 => l2))
        | some none => otherRels
        | none => otherRels
      alSet acc currentRel newVal)
    []

/-- The pagination state of a Store (source lines 452-456): currentPage,
limit (null when unpaginated) and totalRecords. -/
structure PagState : Type where
  currentPage : Nat
  limit : Option Nat
  totalRecords : Nat
deriving Repr

/-- Store.totalPages, source lines 622-627: 0 when limit is falsy, else
the ceiling of totalRecords / limit. -/
def totalPages (st : PagState) : Nat :=
  match st.limit with
  | none => 0
  | some l => if l = 0 then 0 else (st.totalRecords + l - 1) / l

/-- Store.hasNextPage, source lines 633-635. -/
def hasNextPage (st : PagState) : Bool :=
  decide (st.currentPage + 1 ≤ totalPages st)

/-- Store.hasPreviousPage, source lines 637-639. -/
def hasPreviousPage (st : PagState) : Bool :=
  decide (1 < st.currentPage)

/-- Store.setPage, source lines 657-669, without the trailing fetch (the
network call does not touch the pagination state).  The page argument is
an integer (the Number.isInteger guard of line 658 is the typing of the
argument); out of range pages throw. -/
def setPage (st : PagState) (page : Int) : Except String PagState :=
  if page > (totalPages st : Int) ∨ page < 1 then
    .error "Page should be between 1 and totalPages."
  else
    .ok { st with currentPage := page.toNat }

/-- The request-lifecycle state of a model: the pending request counter
and the captured backend validation errors (source lines 41-42). -/
structure ReqState : Type where
  pending : Nat
  valErrors : Obj
deriving Repr

/-- Model.save settling, source lines 326-352: clear validation errors and
increment the counter before the call; on fulfilment decrement; on
rejection decrement and, when the error carries valErrors, capture them
(the error is then re-thrown to the caller). -/
def saveSettle (st : ReqState) (outcome : Except (Option Obj) Unit) : ReqState :=
  let st1 : ReqState := { pending := st.pending + 1, valErrors := [] }
  match outcome with
  | .ok _ => { st1 with pending := st1.pending - 1 }
  | .error ve =>
      { pending := st1.pending - 1
        valErrors := match ve with
          | some o => o
          | none => st1.valErrors }

/-- Model.saveAll settling, source lines 354-375: like save, but the catch
handler only decrements (no validation error capture yet). -/
def saveAllSettle (st : ReqState) (outcome : Except Unit Unit) : ReqState :=
  let st1 : ReqState := { pending := st.pending + 1, valErrors := [] }
  match outcome with
  | .ok _ => { st1 with pending := st1.pending - 1 }
  | .error _ => { st1 with pending := st1.pending - 1 }

/-- Model.fetch settling, source lines 405-420: throws synchronously on a
new model; otherwise increments the counter and registers only a
fulfilment handler - the promise chain has no rejection handler, so on
rejection the counter is left incremented. -/
def fetchSettle (isNew : Bool) (st : ReqState) (outcome : Except Unit Unit) :
    Except String ReqState :=
  if isNew then .error "Trying to fetch model without id!"
  else
    let st1 : ReqState := { st with pending := st.pending + 1 }
    match outcome with
    | .ok _ => .ok { st1 with pending := st1.pending - 1 }
    | .error _ => .ok st1

/-- Model.delete settling, source lines 382-403 (the store-removal side
effect is outside this state): a new model resolves immediately without
touching the counter; otherwise increment, and only a fulfilment handler
decrements - a rejection leaves the counter incremented. -/
def deleteSettle (isNew : Bool) (st : ReqState) (outcome : Except Unit Unit) :
    ReqState :=
  if isNew then st
  else
    let st1 : ReqState := { st with pending := st.pending + 1 }
    match outcome with
    | .ok _ => { st1 with pending := st1.pending - 1 }
    | .error _ => st1

/-- Store.fetch settling, source lines 589-603: increment, and only a
fulfilment handler decrements. -/
def storeFetchSettle (st : ReqState) (outcome : Except Unit Unit) : ReqState :=
  let st1 : ReqState := { st with pending := st.pending + 1 }
  match outcome with
  | .ok _ => { st1 with pending := st1.pending - 1 }
  | .error _ => st1

mutual

/-- An in-memory Model instance (source class Model): its static
primaryKey name, its data attributes with current values (the attribute
registry of the constructor, lines 70-76, in registration order), its
materialized active immediate relations in activation order, and the
repository attached for relation-by-identifier resolution.  Casts are not
modelled: the default casts() is empty (source lines 63-65) and every
claim concerns cast-free entities, so __toJSAttr and __parseAttr are the
identity. -/
inductive MEntity : Type where
  | mk (pkName : String) (attrs : List (String × Value))
      (rels : List (String × MRel)) (repo : List Obj)

/-- A materialized relation field: a nested Model or a nested Store. -/
inductive MRel : Type where
  | model (m : MEntity)
  | store (s : MStore)

/-- An in-memory Store instance (source class Store): the primaryKey name
of its Model class, a template standing for a freshly constructed member
(new this.Model(null, {store, relations})), the ordered member models, the
attached repository, and the nested repositories registered by repository
propagation (source line 461). -/
inductive MStore : Type where
  | mk (pkName : String) (template : MEntity) (models : List MEntity)
      (repo : List Obj) (nestedRepo : List (String × List Obj))

end

/-- The primaryKey name of a model. -/
def MEntity.pk : MEntity → String
  | .mk p _ _ _ => p

/-- The attribute registry with current values. -/
def MEntity.attrs : MEntity → List (String × Value)
  | .mk _ a _ _ => a

/-- The materialized active immediate relations. -/
def MEntity.rels : MEntity → List (String × MRel)
  | .mk _ _ r _ => r

/-- The attached repository (undefined is embedded as the empty list: the
only consumer is a lodash find, which treats both alike). -/
def MEntity.repo : MEntity → List Obj
  | .mk _ _ _ r => r

/-- The primaryKey name of a store's Model class. -/
def MStore.pk : MStore → String
  | .mk p _ _ _ _ => p

/-- The fresh-member template of a store. -/
def MStore.template : MStore → MEntity
  | .mk _ t _ _ _ => t

/-- The ordered members of a store. -/
def MStore.models : MStore → List MEntity
  | .mk _ _ m _ _ => m

/-- The repository attached to a store. -/
def MStore.repoS : MStore → List Obj
  | .mk _ _ _ r _ => r

/-- The nested repositories registered on a store. -/
def MStore.nestedRepo : MStore → List (String × List Obj)
  | .mk _ _ _ _ n => n

/-- JS property read of an attribute on a model: its current value, or
undefined when no such attribute exists. -/
def attrLookup (e : MEntity) (name : String) : Value :=
  match alGet e.attrs name with
  | some v => v
  | none => .vundefined

/-- Store.mapByPrimaryKey, source lines 706-708: the members' values at
the Model class primaryKey, in member order. -/
def mapByPrimaryKey (s : MStore) : List Value :=
  s.models.map (fun m => attrLookup m s.pk)

/-- Model.toBackend, source lines 131-150: every attribute not starting
with an underscore is emitted under its snake-cased name (casts are
absent, so the value is emitted as is); then every active immediate
relation is emitted under its snake-cased name as its primary key (Model
relation) or its ordered list of primary keys (Store relation). -/
def MEntity.toBackend (e : MEntity) : Obj :=
  let base : Obj := e.attrs.foldl
    (fun o kv =>
      if startsWithUnderscore kv.1 then o else alSet o (snakeCase kv.1) kv.2)
    []
  e.rels.foldl
    (fun o kv =>
      match kv.2 with
      | .model m => alSet o (snakeCase kv.1) (attrLookup m m.pk)
      | .store s => alSet o (snakeCase kv.1) (.vlist (mapByPrimaryKey s)))
    base

/-- The output shape of toBackendAll (source line 186 and 690): the flat
records of the serialized node(s) and the relation-name-keyed buckets of
related records. -/
structure BOut : Type where
  data : List Obj
  relations : List (String × List Obj)

/-- Concatenating merge of one relation bucket, as in source lines 179-183
and 683-687: an existing bucket (a truthy array) is extended, a missing
key is assigned. -/
def relMapConcat (acc : List (String × List Obj)) (key : String)
    (objs : List Obj) : List (String × List Obj) :=
  match alGet acc key with
  | some existing => alSet acc key (existing ++ objs)
  | none => acc ++ [(key, objs)]

/-- forIn over a relations map, merging every bucket with relMapConcat. -/
def relMapMergeAll (acc : List (String × List Obj))
    (news : List (String × List Obj)) : List (String × List Obj) :=
  news.foldl (fun a kv => relMapConcat a kv.1 kv.2) acc

/-- The map of source lines 172-174: each null entry of a plural reference
list is replaced by a fresh generateNegativeId, left to right, threading
the uniqueId counter. -/
def fillNulls : List Value → Nat → List Value × Nat
  | [], c => ([], c)
  | .vnull :: rest, c =>
      let ic := generateNegativeId c
      let rc := fillNulls rest ic.2
      (.vint ic.1 :: rc.1, rc.2)
  | v :: rest, c =>
      let rc := fillNulls rest c
      (v :: rc.1, rc.2)

mutual

/-- Model.toBackendAll, source lines 152-187.  newId is the JS argument
(undefined when absent); the Nat is the global uniqueId counter.  The
backend record is computed by toBackend; a truthy newId overrides the
primary key, else a null primary key receives a fresh negative id; then
each active immediate relation is processed in order by relsLoopTBA. -/
def MEntity.toBackendAll (e : MEntity) (newId : Value) (c : Nat) : BOut × Nat :=
  match e with
  | .mk pk attrs rels repo =>
    let data := MEntity.toBackend (.mk pk attrs rels repo)
    let dc : Obj × Nat :=
      if truthy newId then (alSet data pk newId, c)
      else
        match alGet data pk with
        | some .vnull =>
            let ic := generateNegativeId c
            (alSet data pk (.vint ic.1), ic.2)
        | _ => (data, c)
    relsLoopTBA rels dc.1 [] dc.2

/-- The relation loop of Model.toBackendAll (source lines 163-184): for
each active immediate relation, a null reference receives a fresh negative
id, a list reference has its null entries filled; the relation's own
toBackendAll is called with the synthesized id(s) (myNewId, null when
nothing was synthesized); its records are assigned to the backend-cased
bucket and its nested buckets merged by concatenation.  After the loop the
result is one record list holding this record, plus the buckets. -/
def relsLoopTBA (rels : List (String × MRel)) (data : Obj)
    (racc : List (String × List Obj)) (c : Nat) : BOut × Nat :=
  match rels with
  | [] => (⟨[data], racc⟩, c)
  | (rn, r) :: rest =>
    let rb := snakeCase rn
    let step : Value × Obj × Nat :=
      match alGet data rb with
      | some .vnull =>
          let ic := generateNegativeId c
          (.vint ic.1, alSet data rb (.vint ic.1), ic.2)
      | some (.vlist l) =>
          let lc := fillNulls l c
          (.vlist lc.1, alSet data rb (.vlist lc.1), lc.2)
      | _ => (.vnull, data, c)
    let rres := relTBA r step.1 step.2.2
    let racc1 := alSet racc rb rres.1.data
    let racc2 := relMapMergeAll racc1 rres.1.relations
    relsLoopTBA rest step.2.1 racc2 rres.2

/-- Dispatch of rel.toBackendAll(myNewId) at source line 177 on the
relation's runtime type. -/
def relTBA (r : MRel) (newId : Value) (c : Nat) : BOut × Nat :=
  match r with
  | .model m => MEntity.toBackendAll m newId c
  | .store s => MStore.toBackendAll s newId c

/-- Store.toBackendAll, source lines 671-691: each member is serialized
with newIds[i] when defined (null otherwise), the record lists are
concatenated and the relation buckets merged. -/
def MStore.toBackendAll (s : MStore) (newIds : Value) (c : Nat) : BOut × Nat :=
  match s with
  | .mk _ _ ms _ _ => storeLoopTBA ms newIds 0 [] [] c

/-- The member loop of Store.toBackendAll.  newIds && newIds[i] !==
undefined ? newIds[i] : null - a falsy or non-indexable newIds passes
null; an array passes its i-th entry when present; a string indexes into
its characters (JS string indexing - never reached by the library's own
calls). -/
def storeLoopTBA (ms : List MEntity) (newIds : Value) (i : Nat)
    (dacc : List Obj) (racc : List (String × List Obj)) (c : Nat) :
    BOut × Nat :=
  match ms with
  | [] => (⟨dacc, racc⟩, c)
  | m :: rest =>
    let nid : Value :=
      match newIds with
      | .vlist l =>
          match l.get? i with
          | some v => v
          | none => .vnull
      | .vstr st =>
          match st.toList.get? i with
          | some ch => .vstr (String.mk [ch])
          | none => .vnull
      | _ => .vnull
    let mres := MEntity.toBackendAll m nid c
    storeLoopTBA rest newIds (i + 1) (dacc ++ mres.1.data)
      (relMapMergeAll racc mres.1.relations) mres.2

end

/-- Assignment this[attr] = value for a data attribute (the guard of
source line 301 ensures the key exists). -/
def MEntity.setAttr : MEntity → String → Value → MEntity
  | .mk pk a r rp, k, v => .mk pk (alSet a k v) r rp

/-- Replacement of a materialized relation field. -/
def MEntity.setRel : MEntity → String → MRel → MEntity
  | .mk pk a r rp, k, rel => .mk pk a (alSet r k rel) rp

/-- Assignment of the attached repository of a model. -/
def MEntity.setRepo : MEntity → List Obj → MEntity
  | .mk pk a r _, rp => .mk pk a r rp

/-- Assignment of the attached repository of a store. -/
def MStore.setRepoS : MStore → List Obj → MStore
  | .mk pk t ms _ nr, rp => .mk pk t ms rp nr

/-- Replacement of the member list of a store. -/
def MStore.setModels : MStore → List MEntity → MStore
  | .mk pk t _ rp nr, ms => .mk pk t ms rp nr

/-- Registration of a nested repository on a store (source line 261). -/
def MStore.setNested : MStore → String → List Obj → MStore
  | .mk pk t ms rp nr, k, repository => .mk pk t ms rp (alSet nr k repository)

/-- model.__repository = repository (source line 263), on either relation
kind: a Store instance also carries a __repository field. -/
def MRel.setRepository : MRel → List Obj → MRel
  | .model m, rp => .model (m.setRepo rp)
  | .store s, rp => .store (s.setRepoS rp)

/-- JS String(value) as used for object keys by lodash keyBy. -/
def vkey : Value → String
  | .vnull => "null"
  | .vundefined => "undefined"
  | .vint n => toString n
  | .vstr s => s
  | .vbool b => toString b
  | .vlist _ => ""
  | .vobj _ => "[object Object]"

/-- Property read with undefined default, for records. -/
def objGetD (r : Obj) (k : String) : Value :=
  match alGet r k with
  | some v => v
  | none => .vundefined

/-- lodash keyBy(repository, primaryKey), source line 498: an object keyed
by the stringified primary key of each record; a later record with the
same key overwrites. -/
def keyBy (repo : List Obj) (pk : String) : List (String × Obj) :=
  repo.foldl (fun acc r => alSet acc (vkey (objGetD r pk)) r) []

/-- lodash find(repository, { id }), source line 289: the first record
whose literal id field equals (isEqual) the given identifier.  The match
key is the literal string id, not the consulting entity type's declared
primary key. -/
def findById (repo : List Obj) (idv : Value) : Option Obj :=
  repo.find? (fun r =>
    match alGet r "id" with
    | some w => veq w idv
    | none => false)

/-- isPlainObject(get(value, at-index-0)) of source line 306: whether the
first element of an array value is a plain object. -/
def headIsPlainObject : Value → Bool
  | .vlist (x :: _) => isPlainObjectV x
  | _ => false

/-- Seeding of a freshly constructed member's relation repositories from
the owning store's nestedRepository (source lines 117-122): a model-typed
relation named in the map receives the repository; a store-typed relation
would receive a repository construction option, which the Store
constructor rejects (source lines 477-481), embedded as none. -/
def applyNestedRepoRels :
    List (String × MRel) → List (String × List Obj) → Option (List (String × MRel))
  | [], _ => some []
  | (rn, r) :: rest, nr =>
    match alGet nr rn with
    | some repository =>
        match r with
        | .model m =>
            (applyNestedRepoRels rest nr).map
              (fun rs => (rn, MRel.model (m.setRepo repository)) :: rs)
        | .store _ => none
    | none => (applyNestedRepoRels rest nr).map (fun rs => (rn, r) :: rs)

/-- A freshly constructed member before parsing: the template with its
relations' repositories seeded from the store's nestedRepository. -/
def applyNestedRepo (t : MEntity) (nr : List (String × List Obj)) :
    Option MEntity :=
  match t with
  | .mk pk a rels rp => (applyNestedRepoRels rels nr).map (fun rs => .mk pk a rs rp)

mutual

/-- The relation-tree depth of a model: 1 plus the depth of its deepest
materialized relation.  Attributes, repositories and parsing never change
this shape, so it bounds how many relation levels parse can descend;
it is the recursion budget of the parse embedding. -/
def MEntity.mdepth : MEntity → Nat
  | .mk _ _ rels _ => relsDepth rels + 1

/-- Depth of a relation list. -/
def relsDepth : List (String × MRel) → Nat
  | [] => 0
  | (_, r) :: rest => max (MRel.rdepth r) (relsDepth rest)

/-- Depth of one relation field. -/
def MRel.rdepth : MRel → Nat
  | .model m => m.mdepth
  | .store s => s.sdepth

/-- Depth of a store relation: its template and members sit one level
below the owner. -/
def MStore.sdepth : MStore → Nat
  | .mk _ t ms _ _ => max t.mdepth (modelsDepth ms)

/-- Depth of a member list. -/
def modelsDepth : List MEntity → Nat
  | [] => 0
  | m :: rest => max m.mdepth (modelsDepth rest)

end

/-- The forIn field loop of Model.parse, source lines 299-312,
parameterized by the handler for relation-valued fields (the
relation-descent level below, see parseRelValN).  Each key is camelized; a
data attribute is assigned (casts are absent, so verbatim); an active
relation key is dispatched to the handler; unknown keys are ignored.  none
embeds a thrown error. -/
def parseFieldsH (h : MRel → Value → Option MRel) : MEntity → Obj → Option MEntity
  | e, [] => some e
  | e, (k, v) :: rest =>
    let attr := snakeToCamel k
    match alGet e.attrs attr with
    | some _ => parseFieldsH h (e.setAttr attr v) rest
    | none =>
      match alGet e.rels attr with
      | some r =>
          match h r v with
          | some r2 => parseFieldsH h (e.setRel attr r2) rest
          | none => none
      | none => parseFieldsH h e rest

/-- Model.__addFromRepository, source lines 288-293: look the identifier
up in the attached repository by its literal id field; parse the record
when found, silently do nothing when not. -/
def addFromRepoH (h : MRel → Value → Option MRel) (m : MEntity) (idv : Value) :
    Option MEntity :=
  match findById m.repo idv with
  | some r => parseFieldsH h m r
  | none => some m

/-- new this.Model(value, { store, relations }) as _newModel performs it
(source lines 541-546): construct from the template with nested
repositories seeded, then parse the data when truthy (the constructor,
source lines 67-83). -/
def newModelH (h : MRel → Value → Option MRel) (s : MStore) (v : Value) :
    Option MEntity :=
  match applyNestedRepo s.template s.nestedRepo with
  | some t =>
      if truthy v then
        match v with
        | .vobj o => parseFieldsH h t o
        | _ => none
      else some t
  | none => none

/-- The member construction of Store.parse, source line 552. -/
def listParseAllH (h : MRel → Value → Option MRel) (s : MStore) :
    List Value → Option (List MEntity)
  | [] => some []
  | v :: rest =>
    match newModelH h s v with
    | some m => (listParseAllH h s rest).map (fun ms => m :: ms)
    | none => none

/-- Store.parse on an already array-shaped value, source lines 548-555:
replace the members with one freshly constructed model per record. -/
def storeParseValsH (h : MRel → Value → Option MRel) (s : MStore)
    (l : List Value) : Option MStore :=
  match listParseAllH h s l with
  | some ms => some (s.setModels ms)
  | none => none

/-- The member construction of Store.__addFromRepository (source lines
501-508): a looked-up record is parsed into a fresh member; a missing
record (undefined) yields a fresh unparsed member. -/
def recordsToModelsH (h : MRel → Value → Option MRel) (s : MStore) :
    List (Option Obj) → Option (List MEntity)
  | [] => some []
  | r :: rest =>
    let mv : Option MEntity :=
      match r with
      | some o => newModelH h s (.vobj o)
      | none => newModelH h s .vundefined
    match mv with
    | some m => (recordsToModelsH h s rest).map (fun ms => m :: ms)
    | none => none

/-- Store.__addFromRepository, source lines 494-509: wrap a bare id in a
list, key the repository by the Model class primary key (stringified),
pick the records at the given ids, and replace the members with models
constructed from them. -/
def storeAddFromRepoH (h : MRel → Value → Option MRel) (s : MStore) (v : Value) :
    Option MStore :=
  let ids : List Value :=
    match v with
    | .vlist l => l
    | w => [w]
  let keyed := keyBy s.repoS s.pk
  let records : List (Option Obj) := ids.map (fun idv => alGet keyed (vkey idv))
  match recordsToModelsH h s records with
  | some ms => some (s.setModels ms)
  | none => none

/-- Dispatch of one relation-valued field of Model.parse (source lines
303-310), by structural recursion on the relation-descent budget (one
level is consumed per relation hop; parse descends one materialized
relation per hop and the relation-tree depth bounds the nesting, so the
budget mdepth of the top-level wrappers always suffices).  Nested-data
shape calls this[attr].parse(value) - Model.parse requires a plain object
and Store.parse an array, each throwing otherwise - while identifier shape
calls this[attr].__addFromRepository(value). -/
def parseRelValN : Nat → MRel → Value → Option MRel
  | 0, _, _ => none
  | n + 1, r, v =>
    if isPlainObjectV v || headIsPlainObject v then
      match r with
      | .model m =>
          match v with
          | .vobj o => (parseFieldsH (parseRelValN n) m o).map MRel.model
          | _ => none
      | .store s =>
          match v with
          | .vlist l => (storeParseValsH (parseRelValN n) s l).map MRel.store
          | _ => none
    else
      match r with
      | .model m => (addFromRepoH (parseRelValN n) m v).map MRel.model
      | .store s => (storeAddFromRepoH (parseRelValN n) s v).map MRel.store

/-- The field loop of Model.parse at a given relation-descent budget. -/
def parseFields (n : Nat) : MEntity → Obj → Option MEntity :=
  parseFieldsH (parseRelValN n)

/-- Model.__addFromRepository at a given relation-descent budget. -/
def addFromRepoFuel (n : Nat) : MEntity → Value → Option MEntity :=
  addFromRepoH (parseRelValN n)

/-- Store._newModel at a given relation-descent budget. -/
def newModelFuel (n : Nat) : MStore → Value → Option MEntity :=
  newModelH (parseRelValN n)

/-- Model.parse, source lines 295-315: a non-object argument throws; an
object's fields are processed with the full relation-depth budget. -/
def MEntity.parse (e : MEntity) (v : Value) : Option MEntity :=
  match v with
  | .vobj o => parseFields e.mdepth e o
  | _ => none

/-- Model.__addFromRepository at the top level, with the full budget. -/
def MEntity.addFromRepository (e : MEntity) (idv : Value) : Option MEntity :=
  addFromRepoFuel e.mdepth e idv

/-- Character-level split on a separator, as JS String.prototype.split of
one character behaves (an empty input yields one empty group). -/
def splitChars (sep : Char) : List Char → List (List Char)
  | [] => [[]]
  | c :: rest =>
    if c = sep then [] :: splitChars sep rest
    else
      match splitChars sep rest with
      | g :: gs => (c :: g) :: gs
      | [] => [[c]]

/-- relName.split of the dot (source line 231). -/
def splitDots (s : String) : List String :=
  (splitChars '.' s.toList).map String.mk

/-- Descent of lodash get through plain-object attribute values (relation
chains never resolve through these to a Store, but the defined-ness of the
path decides which fromBackend branch runs). -/
def valuePath : Value → List String → Option Value
  | v, [] => some v
  | .vobj o, seg :: rest =>
      match alGet o seg with
      | some w => valuePath w rest
      | none => none
  | _, _ :: _ => none

/-- lodash get(this, relationPath) on a model (source line 222): follow
the dotted path through materialized relation fields; a Store in the
middle of a path exposes no relation fields, so the chain dies there; a
path through a data attribute descends into its plain-object value (such a
target is never a relation).  Relation fields and attribute fields never
share a name on a real instance; the relation map is consulted first. -/
def pathResolve (e : MEntity) : List String → Option (Sum MRel Value)
  | [] => none
  | [seg] =>
      match alGet e.rels seg with
      | some r => some (.inl r)
      | none => (alGet e.attrs seg).map .inr
  | seg :: rest =>
      match alGet e.rels seg with
      | some (.model m) => pathResolve m rest
      | some (.store _) => none
      | none =>
          match alGet e.attrs seg with
          | some v => (valuePath v rest).map .inr
          | none => none

/-- model.__repository = repository at the end of a resolved relation
path (source line 263). -/
def setRelRepoAtPath (e : MEntity) : List String → List Obj → Option MEntity
  | [], _ => none
  | [seg], repository =>
      match alGet e.rels seg with
      | some r => some (e.setRel seg (r.setRepository repository))
      | none => none
  | seg :: rest, repository =>
      match alGet e.rels seg with
      | some (.model m) =>
          (setRelRepoAtPath m rest repository).map
            (fun m2 => e.setRel seg (.model m2))
      | _ => none

/-- The find-first-Store walk of fromBackend (source lines 231-261): walk
the path prefixes; the first prefix resolving to a Store receives the
remaining path (dot-joined) in its nestedRepository; when no prefix
resolves to a Store the JS code dereferences undefined and throws,
embedded as none. -/
def setNestedAtFirstStore (e : MEntity) :
    List String → List Obj → Option MEntity
  | [], _ => none
  | seg :: rest, repository =>
      match alGet e.rels seg with
      | some (.store s) =>
          some (e.setRel seg
            (.store (s.setNested (String.intercalate "." rest) repository)))
      | some (.model m) =>
          (setNestedAtFirstStore m rest repository).map
            (fun m2 => e.setRel seg (.model m2))
      | none => none

/-- The relMapping loop of Model.fromBackend, source lines 218-265: for
each relation path, camelize it and resolve it on the instance; a resolved
target receives the repository directly (assignment onto a plain attribute
value has no observable effect on the graph); an unresolved path registers
the repository under the remaining path on the first Store prefix.  A
missing repository name passes undefined, which behaves like an empty
repository for every consumer. -/
def attachRepos (e : MEntity) :
    List (String × String) → List (String × List Obj) → Option MEntity
  | [], _ => some e
  | (relName, repoName) :: rest, repos =>
    let repository : List Obj :=
      match alGet repos repoName with
      | some l => l
      | none => []
    let path := splitDots (snakeToCamel relName)
    match pathResolve e path with
    | some (.inl _) =>
        match setRelRepoAtPath e path repository with
        | some e2 => attachRepos e2 rest repos
        | none => none
    | some (.inr _) => attachRepos e rest repos
    | none =>
        match setNestedAtFirstStore e path repository with
        | some e2 => attachRepos e2 rest repos
        | none => none

/-- Model.fromBackend, source lines 213-272: attach every repository of
the relation-to-repository mapping, then parse the data when truthy. -/
def MEntity.fromBackend (e : MEntity) (data : Value)
    (repos : List (String × List Obj)) (relMapping : List (String × String)) :
    Option MEntity :=
  match attachRepos e relMapping repos with
  | some e2 => if truthy data then e2.parse data else some e2
  | none => none

/-- Store.get, source lines 695-700: the first member whose own primary
key is loosely equal (JS ==) to the given identifier. -/
def MStore.get (s : MStore) (idv : Value) : Option MEntity :=
  s.models.find? (fun m => veqLoose (attrLookup m m.pk) idv)

/-- Store._newModel at the top level: fresh member construction with the
full parse budget of the (seeded) template. -/
def MStore.newModel (s : MStore) (v : Value) : Option MEntity :=
  newModelFuel s.template.mdepth s v

/-- The per-instance push loop of Store.add (source lines 563-571): each
instance whose truthy primary key is already present in the store (checked
against the members at that moment, including instances just pushed)
throws; instances before the throwing one remain pushed. -/
def addLoop (s : MStore) : List MEntity → MStore × Option String
  | [] => (s, none)
  | inst :: rest =>
    let pv := attrLookup inst s.pk
    if truthy pv && (s.get pv).isSome then
      (s, some "A model with the same primary key value already exists in this store.")
    else addLoop (s.setModels (s.models ++ [inst])) rest

/-- The instance construction of Store.add (source line 561), which runs
before any push; a construction failure throws with the members
untouched. -/
def buildInstances (s : MStore) : List Obj → Option (List MEntity)
  | [] => some []
  | r :: rest =>
    match s.newModel (.vobj r) with
    | some m => (buildInstances s rest).map (fun ms => m :: ms)
    | none => none

/-- Store.add, source lines 557-574, on a list of raw records (a single
record is the one-element list; the method also wraps it so).  The result
is the store after the call and the thrown error when one occurred. -/
def MStore.add (s : MStore) (input : List Obj) : MStore × Option String :=
  match buildInstances s input with
  | some insts => addLoop s insts
  | none => (s, some "Parameter supplied to parse() is not an object.")

/-- Store.at, source lines 722-733: only an index above length - 1
throws; a negative index is shifted by the length, and a still-negative
result reads an absent array slot, yielding undefined (none) without an
error. -/
def MStore.atIndex (s : MStore) (index : Int) : Except String (Option MEntity) :=
  let zeroLength : Int := (s.models.length : Int) - 1
  if index > zeroLength then
    .error "Index is out of bounds."
  else
    let shifted : Int := if index < 0 then index + (s.models.length : Int) else index
    .ok (if shifted < 0 then none else s.models.get? shifted.toNat)

/-- A primitive attribute value: null, a number, a string or a boolean. -/
def isPrimitive : Value → Bool
  | .vnull => true
  | .vint _ => true
  | .vstr _ => true
  | .vbool _ => true
  | _ => false

/-- A leaf member entity used by the concrete scenarios: primary key id
(unset) and a name attribute. -/
def demoMember (nm : String) : MEntity :=
  .mk "id" [("id", .vnull), ("name", .vstr nm)] [] []

/-- The plural-relation store of the concrete graph-flatten scenario:
three new members, none with a primary key set. -/
def demoStore3 : MStore :=
  .mk "id" (demoMember "t") [demoMember "a", demoMember "b", demoMember "c"] [] []

/-- The entity of the concrete graph-flatten scenario: unsaved, with one
active plural relation members. -/
def demoOwner : MEntity :=
  .mk "id" [("id", .vnull), ("title", .vstr "x")]
    [("members", .store demoStore3)] []

/-- The nested kind entity of the repository-resolution scenario. -/
def demoKind : MEntity := .mk "id" [("id", .vnull), ("name", .vnull)] [] []

/-- The owning entity of the repository-resolution scenario, with an
active kind relation. -/
def demoAnimal : MEntity :=
  .mk "id" [("id", .vnull)] [("kind", .model demoKind)] []

/-- The template of the collection-uniqueness scenario. -/
def demoTemplate : MEntity := .mk "id" [("id", .vnull)] [] []

/-- A collection holding one member with primary key 1. -/
def demoStoreOne : MStore :=
  .mk "id" demoTemplate [MEntity.mk "id" [("id", .vint 1)] [] []] [] []

/-- The two-record input whose second record collides with the existing
member: the first record is added before the conflict throws. -/
def demoConflictInput : List Obj := [[("id", .vint 2)], [("id", .vint 1)]]

/-- A collection with two members, for the negative-index scenario. -/
def demoStoreTwo : MStore :=
  .mk "id" demoTemplate
    [MEntity.mk "id" [("id", .vint 1)] [] [], MEntity.mk "id" [("id", .vint 2)] [] []]
    [] []

/-- An entity whose type declares primary key uuid, with a repository
record whose uuid (3) and id (7) fields differ: resolution goes through
the literal id field. -/
def demoUuidEntity : MEntity :=
  .mk "uuid" [("uuid", .vnull), ("name", .vnull)] []
    [[("uuid", .vint 3), ("id", .vint 7), ("name", .vstr "Dog")]]

/-- A primitive-attribute entity for the round-trip scenario. -/
def demoFlat : MEntity :=
  .mk "id" [("id", .vint 4), ("firstName", .vstr "bob"), ("age", .vint 3)] [] []

theorem alGet_alSet_self {α : Type} (o : List (String × α)) (k : String) (v : α) :
    alGet (alSet o k v) k = some v := by
  induction o with
  | nil => simp [alGet, alSet]
  | cons p rest ih =>
    obtain ⟨k1, v1⟩ := p
    by_cases h : k1 = k
    · simp [alGet, alSet, h]
    · simp [alGet, alSet, h, ih]

theorem alGet_alSet_ne {α : Type} (o : List (String × α)) (k k2 : String) (v : α)
    (h : k2 ≠ k) : alGet (alSet o k v) k2 = alGet o k2 := by
  induction o with
  | nil =>
    have hne : ¬ k = k2 := fun hh => h hh.symm
    simp [alGet, alSet, hne]
  | cons p rest ih =>
    obtain ⟨k1, v1⟩ := p
    by_cases h1 : k1 = k
    · subst h1
      have hne : ¬ k1 = k2 := fun hh => h hh.symm
      simp [alGet, alSet, hne]
    · by_cases h2 : k1 = k2
      · simp [alGet, alSet, h1, h2, h]
      · simp [alGet, alSet, h1, h2, ih]

theorem alSet_of_alGet_eq {α : Type} (o : List (String × α)) (k : String) (v : α)
    (h : alGet o k = some v) : alSet o k v = o := by
  induction o with
  | nil => simp [alGet] at h
  | cons p rest ih =>
    obtain ⟨k1, v1⟩ := p
    by_cases h1 : k1 = k
    · subst h1
      simp [alGet] at h
      simp [alSet, h]
    · simp [alGet, h1] at h
      simp [alSet, h1, ih h]

theorem alGet_of_mem_nodup {α : Type} (o : List (String × α)) (k : String) (v : α)
    (hnd : (o.map Prod.fst).Nodup) (hmem : (k, v) ∈ o) : alGet o k = some v := by
  induction o with
  | nil => simp at hmem
  | cons p rest ih =>
    obtain ⟨k1, v1⟩ := p
    rw [List.map_cons, List.nodup_cons] at hnd
    rcases List.mem_cons.mp hmem with heq | hmem2
    · simp [Prod.ext_iff] at heq
      obtain ⟨rfl, rfl⟩ := heq
      simp [alGet]
    · have hne : ¬ k1 = k := by
        intro hk
        subst hk
        exact hnd.1 (List.mem_map.mpr ⟨(k1, v), hmem2, rfl⟩)
      simp [alGet, hne, ih hnd.2 hmem2]

theorem alGet_append {α : Type} (a b : List (String × α)) (k : String) :
    alGet (a ++ b) k =
      (match alGet a k with
       | some v => some v
       | none => alGet b k) := by
  induction a with
  | nil => simp [alGet]
  | cons p rest ih =>
    obtain ⟨k1, v1⟩ := p
    by_cases h : k1 = k
    · simp [alGet, h]
    · simp [alGet, h, ih]

theorem alSet_append_of_alGet_none {α : Type} (o : List (String × α)) (k : String)
    (v : α) (h : alGet o k = none) : alSet o k v = o ++ [(k, v)] := by
  induction o with
  | nil => simp [alSet]
  | cons p rest ih =>
    obtain ⟨k1, v1⟩ := p
    by_cases h1 : k1 = k
    · simp [alGet, h1] at h
    · simp [alGet, h1] at h
      simp [alSet, h1, ih h]

theorem genSeq_spec (c0 : Nat) (k : Nat) :
    genSeq c0 k = (-(Int.ofNat (c0 + k + 1)), c0 + k + 1) := by
  induction k with
  | zero => simp [genSeq, generateNegativeId, uniqueIdNext]
  | succ k ih =>
      simp [genSeq, ih, generateNegativeId, uniqueIdNext, Prod.ext_iff]
      constructor
      · omega
      · omega

/-- C8: every value of the placeholder-identifier synthesizer is negative,
and two distinct calls within one process (the k-th and j-th calls on the
shared uniqueId counter) never return the same value. -/
theorem c8_negative_unique (c0 j k : Nat) (h : j ≠ k) :
    (genSeq c0 j).1 < 0 ∧ (genSeq c0 j).1 ≠ (genSeq c0 k).1 := by
  rw [genSeq_spec, genSeq_spec]
  simp only [Int.ofNat_eq_natCast]
  constructor
  · omega
  · intro heq
    omega

/-- Witness for C8 at concrete inputs. -/
theorem c8_negative_unique_witness :
    (0 : Nat) ≠ 1 ∧ ((genSeq 5 0).1 < 0 ∧ (genSeq 5 0).1 ≠ (genSeq 5 1).1) :=
  ⟨by decide, c8_negative_unique 5 0 1 (by decide)⟩

/-- C3: evaluating the relation-descriptor grouping on a dotted path
followed by its bare first segment.  The accumulated continuation list for
kind is the two-element array holding breed and a null entry: the bare
segment appended null (Array.concat of null) instead of leaving the
continuations untouched, and the subsequent instantiation of the kind
relation passes this array as its nested relation paths, where the null
entry crashes the nested __parseRelations (null.match is a TypeError).
The claim's merged continuations would be the one-element array breed. -/
theorem c3_bare_segment_appends_null :
    parseRelationsModels ["kind.breed", "kind"]
      = [("kind", some [some "breed", none])] := rfl

/-- C6 (amended): save and saveAll restore the pending counter on both
fulfilment and rejection, and a rejected save carrying valErrors captures
them; fetch (model and store) and delete restore the counter only on
fulfilment - a rejection leaves it incremented, because their promise
chains register no rejection handler. -/
theorem c6_request_accounting_amended (st : ReqState) (o : Obj) :
    ((saveSettle st (.ok ())).pending = st.pending)
    ∧ ((saveSettle st (.error none)).pending = st.pending)
    ∧ ((saveSettle st (.error (some o))).pending = st.pending)
    ∧ ((saveSettle st (.error (some o))).valErrors = o)
    ∧ ((saveAllSettle st (.ok ())).pending = st.pending)
    ∧ ((saveAllSettle st (.error ())).pending = st.pending)
    ∧ ((fetchSettle false st (.ok ())).map ReqState.pending = .ok st.pending)
    ∧ ((fetchSettle false st (.error ())).map ReqState.pending = .ok (st.pending + 1))
    ∧ ((deleteSettle false st (.ok ())).pending = st.pending)
    ∧ ((deleteSettle false st (.error ())).pending = st.pending + 1)
    ∧ ((storeFetchSettle st (.ok ())).pending = st.pending)
    ∧ ((storeFetchSettle st (.error ())).pending = st.pending + 1) := by
  refine ⟨?_, ?_, ?_, ?_, ?_, ?_, ?_, ?_, ?_, ?_, ?_, ?_⟩ <;>
    simp [saveSettle, saveAllSettle, fetchSettle, deleteSettle, storeFetchSettle,
      Except.map]

/-- C6 counterexample: a model fetch whose network call rejects leaves the
pending counter at 1, not at its pre-call value 0 - fetch registers no
rejection handler, so the decrement never runs. -/
theorem c6_fetch_reject_counterexample :
    (fetchSettle false { pending := 0, valErrors := [] } (.error ())).map
      ReqState.pending ≠ .ok 0 := by
  simp [fetchSettle, Except.map]

/-- C4: pagination.  totalPages is 0 without a limit and the ceiling of
totalRecords over the limit with one (characterized by its Galois
property); hasNextPage and hasPreviousPage are the stated comparisons;
setPage fails outside the interval from 1 to totalPages and on success
sets the current page; and the concrete 50-records-limit-25 facts. -/
theorem c4_pagination (st : PagState) (n : Int) :
    (st.limit = none → totalPages st = 0)
    ∧ (∀ l, st.limit = some l → 0 < l →
        ∀ k, totalPages st ≤ k ↔ st.totalRecords ≤ k * l)
    ∧ (hasNextPage st = true ↔ st.currentPage + 1 ≤ totalPages st)
    ∧ (hasPreviousPage st = true ↔ 1 < st.currentPage)
    ∧ ((n < 1 ∨ (totalPages st : Int) < n) →
        setPage st n = .error "Page should be between 1 and totalPages.")
    ∧ (1 ≤ n → n ≤ (totalPages st : Int) →
        setPage st n = .ok { st with currentPage := n.toNat })
    ∧ (totalPages { currentPage := 1, limit := some 25, totalRecords := 50 } = 2)
    ∧ (setPage { currentPage := 1, limit := some 25, totalRecords := 50 } 3 =
        .error "Page should be between 1 and totalPages.")
    ∧ (∀ st2, setPage { currentPage := 1, limit := some 25, totalRecords := 50 } 1 = .ok st2 →
        hasPreviousPage st2 = false ∧ hasNextPage st2 = true) := by
  refine ⟨?_, ?_, ?_, ?_, ?_, ?_, ?_, ?_, ?_⟩
  · intro h
    simp [totalPages, h]
  · intro l hl hlpos k
    have hne : ¬ l = 0 := by omega
    simp only [totalPages, hl, if_neg hne]
    rw [Nat.div_le_iff_le_mul_add_pred hlpos, Nat.mul_comm k l]
    omega
  · simp [hasNextPage]
  · simp [hasPreviousPage]
  · intro h
    have hc : n > (totalPages st : Int) ∨ n < 1 := by omega
    simp [setPage, hc]
  · intro h1 h2
    have hc : ¬ (n > (totalPages st : Int) ∨ n < 1) := by omega
    simp [setPage, hc]
  · rfl
  · rfl
  · intro st2 h
    have heval : setPage { currentPage := 1, limit := some 25, totalRecords := 50 } 1
        = .ok { currentPage := 1, limit := some 25, totalRecords := 50 } := rfl
    rw [heval] at h
    cases h
    exact ⟨rfl, rfl⟩

/-- Witness for C4 at the concrete pagination state. -/
theorem c4_pagination_witness :
    setPage { currentPage := 1, limit := some 25, totalRecords := 50 } 3 =
      .error "Page should be between 1 and totalPages." :=
  (c4_pagination { currentPage := 1, limit := some 25, totalRecords := 50 } 3).2.2.2.2.1
    (by decide)

/-- C7 (amended): Store.at returns the member at a nonnegative in-bounds
index, wraps a negative index within one length from the end, and fails
only when the index exceeds length - 1; a negative index beyond bounds
does not fail - it yields no member (the undefined array read), and in no
case is the member list touched (the operation is read-only). -/
theorem c7_at_amended (s : MStore) (index : Int) :
    ((index > (s.models.length : Int) - 1) →
        MStore.atIndex s index = .error "Index is out of bounds.")
    ∧ (0 ≤ index → index ≤ (s.models.length : Int) - 1 →
        MStore.atIndex s index = .ok (s.models.get? index.toNat))
    ∧ (-(s.models.length : Int) ≤ index → index < 0 →
        MStore.atIndex s index = .ok (s.models.get? (index + s.models.length).toNat))
    ∧ (index < -(s.models.length : Int) → MStore.atIndex s index = .ok none) := by
  refine ⟨?_, ?_, ?_, ?_⟩
  · intro h
    simp only [MStore.atIndex]
    split_ifs <;> first | rfl | (exfalso; omega)
  · intro ha hb
    simp only [MStore.atIndex]
    split_ifs <;> first | rfl | (exfalso; omega)
  · intro ha hb
    simp only [MStore.atIndex]
    split_ifs <;> first | rfl | (exfalso; omega)
  · intro h
    simp only [MStore.atIndex]
    split_ifs <;> first | rfl | (exfalso; omega)

/-- Witness for C7: on the two-member collection, index -3 lies beyond
bounds and the call returns no member without failing. -/
theorem c7_at_amended_witness :
    (-3 : Int) < -(demoStoreTwo.models.length : Int)
    ∧ MStore.atIndex demoStoreTwo (-3) = .ok none :=
  ⟨by decide, (c7_at_amended demoStoreTwo (-3)).2.2.2 (by decide)⟩

/-- C7 counterexample: the claim asserts that at(-3) on a two-member
collection fails with a range error; the code does not fail - the shifted
index -1 reads an absent array slot and yields undefined. -/
theorem c7_negative_beyond_counterexample :
    ¬ ∃ msg, MStore.atIndex demoStoreTwo (-3) = Except.error msg := by
  intro hex
  obtain ⟨msg, h⟩ := hex
  have heval : MStore.atIndex demoStoreTwo (-3) = .ok none := rfl
  rw [heval] at h
  simp at h

/-- C10: relation resolution by identifier is a silent no-op when the
attached repository holds no record whose literal id field equals the
identifier (no error, entity unchanged); and the lookup matches on the
literal field name id rather than the declared primary key: on an entity
type with primary key uuid, the record whose id is 7 (uuid 3) is found
under identifier 7, and identifier 3 - its uuid value - matches nothing,
leaving the entity unchanged. -/
theorem c10_missing_id_silent (e : MEntity) (idv : Value)
    (h : ∀ r ∈ e.repo, ∀ w, alGet r "id" = some w → veq w idv = false) :
    MEntity.addFromRepository e idv = some e
    ∧ ((MEntity.addFromRepository demoUuidEntity (.vint 7)).map
        (fun m => attrLookup m "name") = some (.vstr "Dog"))
    ∧ MEntity.addFromRepository demoUuidEntity (.vint 3) = some demoUuidEntity := by
  refine ⟨?_, rfl, rfl⟩
  have hnone : findById e.repo idv = none := by
    apply List.find?_eq_none.mpr
    intro r hr
    cases hw : alGet r "id" with
    | none => simp [hw]
    | some w => simp [hw, h r hr w hw]
  simp [MEntity.addFromRepository, addFromRepoFuel, addFromRepoH, hnone]

/-- Witness for C10 on an entity with an empty repository. -/
theorem c10_missing_id_silent_witness :
    (∀ r ∈ demoKind.repo, ∀ w, alGet r "id" = some w → veq w (.vint 9) = false)
    ∧ MEntity.addFromRepository demoKind (.vint 9) = some demoKind :=
  ⟨by simp [demoKind, MEntity.repo],
   (c10_missing_id_silent demoKind (.vint 9) (by simp [demoKind, MEntity.repo])).1⟩

theorem MStore_models_setModels (s : MStore) (ms : List MEntity) :
    (MStore.setModels s ms).models = ms := by
  cases s
  rfl

theorem addLoop_models_extend (insts : List MEntity) (s : MStore) :
    ∃ t, (addLoop s insts).1.models = s.models ++ t := by
  induction insts generalizing s with
  | nil => exact ⟨[], by simp [addLoop]⟩
  | cons inst rest ih =>
    by_cases hc : (truthy (attrLookup inst s.pk)
        && (MStore.get s (attrLookup inst s.pk)).isSome) = true
    · refine ⟨[], ?_⟩
      simp [addLoop, hc]
    · obtain ⟨t, ht⟩ := ih (s.setModels (s.models ++ [inst]))
      refine ⟨inst :: t, ?_⟩
      rw [MStore_models_setModels] at ht
      simp [addLoop, hc, ht]

/-- C5 counterexample: the claim asserts that on a primary-key conflict
no member from the input is added; adding the two records with ids 2 and
1 to a collection already holding id 1 does fail, but the id-2 record has
already been pushed, so the member list is not unchanged. -/
theorem c5_partial_add_counterexample :
    (MStore.add demoStoreOne demoConflictInput).2.isSome = true
    ∧ (MStore.add demoStoreOne demoConflictInput).1.models.length ≠
        demoStoreOne.models.length :=
  ⟨rfl, by decide⟩

/-- C5 (amended): a conflicting insertion fails with the conflict error;
for a single-record input the member list is unchanged, and in general the
original members always remain an unchanged prefix of the result - but
input records preceding the first conflicting one stay added. -/
theorem c5_add_conflict_amended (s : MStore) (r : Obj) (inst : MEntity)
    (hbuild : MStore.newModel s (.vobj r) = some inst)
    (hpk : truthy (attrLookup inst s.pk) = true)
    (hconf : (MStore.get s (attrLookup inst s.pk)).isSome = true) :
    MStore.add s [r] =
      (s, some "A model with the same primary key value already exists in this store.")
    ∧ ∀ input, ∃ t, (MStore.add s input).1.models = s.models ++ t := by
  constructor
  · simp only [MStore.add, buildInstances, hbuild]
    simp [addLoop, hpk, hconf]
  · intro input
    cases hbi : buildInstances s input with
    | none =>
        refine ⟨[], ?_⟩
        simp [MStore.add, hbi]
    | some insts =>
        obtain ⟨t, ht⟩ := addLoop_models_extend insts s
        refine ⟨t, ?_⟩
        simp [MStore.add, hbi, ht]

/-- Witness for C5 on the one-member collection and the colliding
record. -/
theorem c5_add_conflict_amended_witness :
    MStore.newModel demoStoreOne (.vobj [("id", .vint 1)])
      = some (MEntity.mk "id" [("id", .vint 1)] [] [])
    ∧ MStore.add demoStoreOne [[("id", .vint 1)]] =
      (demoStoreOne,
        some "A model with the same primary key value already exists in this store.") :=
  ⟨rfl,
   (c5_add_conflict_amended demoStoreOne [("id", .vint 1)]
      (MEntity.mk "id" [("id", .vint 1)] [] []) rfl rfl rfl).1⟩

theorem toBackend_attrs_fold : ∀ (l : List (String × Value)) (acc : Obj),
    (∀ p ∈ l, startsWithUnderscore p.1 = false) →
    (∀ p ∈ l, alGet acc (snakeCase p.1) = none) →
    ((l.map (fun p => snakeCase p.1)).Nodup) →
    l.foldl (fun o kv =>
        if startsWithUnderscore kv.1 then o else alSet o (snakeCase kv.1) kv.2) acc
      = acc ++ l.map (fun p => (snakeCase p.1, p.2))
  | [], acc, _, _, _ => by simp
  | (nm, v) :: rest, acc, hund, hfresh, hnd => by
    have hu : startsWithUnderscore nm = false := hund (nm, v) (List.mem_cons_self _ _)
    rw [List.map_cons, List.nodup_cons] at hnd
    rw [List.foldl_cons]
    simp only [hu, Bool.false_eq_true, if_false]
    rw [alSet_append_of_alGet_none _ _ _ (hfresh (nm, v) (List.mem_cons_self _ _))]
    rw [toBackend_attrs_fold rest (acc ++ [(snakeCase nm, v)])
        (fun p hp => hund p (List.mem_cons_of_mem _ hp))
        (fun p hp => by
          rw [alGet_append]
          rw [hfresh p (List.mem_cons_of_mem _ hp)]
          have hne : ¬ snakeCase nm = snakeCase p.1 := by
            intro hh
            exact hnd.1 (hh ▸ List.mem_map.mpr ⟨p, hp, rfl⟩)
          simp [alGet, hne])
        hnd.2]
    simp

theorem parseFieldsH_id (h : MRel → Value → Option MRel) (e : MEntity) :
    ∀ (fields : Obj),
    (∀ p ∈ fields, alGet e.attrs (snakeToCamel p.1) = some p.2) →
    parseFieldsH h e fields = some e
  | [], _ => rfl
  | (k, v) :: rest, hf => by
    have hk := hf (k, v) (List.mem_cons_self _ _)
    have hset : e.setAttr (snakeToCamel k) v = e := by
      cases e with
      | mk pk a r rp =>
        simp only [MEntity.attrs] at hk
        simp only [MEntity.setAttr]
        rw [alSet_of_alGet_eq _ _ _ hk]
    simp only [parseFieldsH, hk, hset]
    exact parseFieldsH_id h e rest (fun p hp => hf p (List.mem_cons_of_mem _ hp))

/-- C9: round-trip.  For an entity with no active relations whose
attributes hold primitive values, whose attribute names are distinct,
round-trip stable under the naming conversion (the spec states the
conversion is mechanical and bidirectional) and not underscore-prefixed,
parsing the output of toBackend restores the entity exactly. -/
theorem c9_round_trip (e : MEntity)
    (hrels : e.rels = [])
    (hnodup : (e.attrs.map Prod.fst).Nodup)
    (hinv : ∀ p ∈ e.attrs, snakeToCamel (snakeCase p.1) = p.1)
    (hund : ∀ p ∈ e.attrs, startsWithUnderscore p.1 = false)
    (hprim : ∀ p ∈ e.attrs, isPrimitive p.2 = true) :
    MEntity.parse e (.vobj (MEntity.toBackend e)) = some e := by
  have hsnd : (e.attrs.map (fun p => snakeCase p.1)).Nodup := by
    have hmm : (e.attrs.map (fun p => snakeCase p.1))
        = (e.attrs.map Prod.fst).map snakeCase := by
      simp [List.map_map]
    rw [hmm]
    refine List.Nodup.map_on ?_ hnodup
    intro x hx y hy hxy
    obtain ⟨px, hpx, rfl⟩ := List.mem_map.mp hx
    obtain ⟨py, hpy, rfl⟩ := List.mem_map.mp hy
    have h1 := hinv px hpx
    have h2 := hinv py hpy
    rw [← h1, ← h2, hxy]
  have htb : MEntity.toBackend e = e.attrs.map (fun p => (snakeCase p.1, p.2)) := by
    cases e with
    | mk pk a r rp =>
      simp only [MEntity.rels] at hrels
      subst hrels
      simp only [MEntity.attrs] at hund hsnd
      simp only [MEntity.toBackend, MEntity.attrs, MEntity.rels, List.foldl_nil]
      rw [toBackend_attrs_fold a [] hund (fun p hp => rfl) hsnd]
      simp
  simp only [MEntity.parse, htb, parseFields]
  refine parseFieldsH_id _ e _ ?_
  intro p hp
  obtain ⟨q, hq, rfl⟩ := List.mem_map.mp hp
  have hq1 := hinv q hq
  simp only [hq1]
  exact alGet_of_mem_nodup _ _ _ hnodup hq

/-- Witness for C9 on a concrete primitive-attribute entity. -/
theorem c9_round_trip_witness :
    (demoFlat.rels = []
      ∧ (demoFlat.attrs.map Prod.fst).Nodup
      ∧ (∀ p ∈ demoFlat.attrs, snakeToCamel (snakeCase p.1) = p.1)
      ∧ (∀ p ∈ demoFlat.attrs, startsWithUnderscore p.1 = false)
      ∧ (∀ p ∈ demoFlat.attrs, isPrimitive p.2 = true))
    ∧ MEntity.parse demoFlat (.vobj (MEntity.toBackend demoFlat)) = some demoFlat := by
  refine ⟨⟨rfl, by decide, by decide, by decide, by decide⟩, ?_⟩
  exact c9_round_trip demoFlat rfl (by decide) (by decide) (by decide) (by decide)

theorem MEntity_setRel_attrs (e : MEntity) (k : String) (r : MRel) :
    (e.setRel k r).attrs = e.attrs := by
  cases e
  rfl

theorem MEntity_setRel_rels (e : MEntity) (k : String) (r : MRel) :
    (e.setRel k r).rels = alSet e.rels k r := by
  cases e
  rfl

theorem MEntity_setAttr_attrs (e : MEntity) (k : String) (v : Value) :
    (e.setAttr k v).attrs = alSet e.attrs k v := by
  cases e
  rfl

theorem MEntity_setRepo_repo (m : MEntity) (R : List Obj) :
    (m.setRepo R).repo = R := by
  cases m
  rfl

theorem MEntity_setRepo_attrs (m : MEntity) (R : List Obj) :
    (m.setRepo R).attrs = m.attrs := by
  cases m
  rfl

theorem MEntity_mdepth_eq (e : MEntity) :
    MEntity.mdepth e = relsDepth e.rels + 1 := by
  cases e
  rfl

/-- C2: repository resolution.  For an entity with an active immediate
relation kind (a leaf model entity carrying id and name attributes, and
not shadowed by a data attribute named kind), running fromBackend with
relMapping kind to animal_kind, the animal_kind repository holding the
record with id 7 and name Dog, and data assigning 7 to kind, resolves the
scalar identifier through the attached repository: the nested kind entity
ends with its name attribute equal to Dog. -/
theorem c2_repository_resolution (e k : MEntity)
    (hrel : alGet e.rels "kind" = some (.model k))
    (hattr : alGet e.attrs "kind" = none)
    (hname : ∃ w, alGet k.attrs "name" = some w)
    (hid : ∃ u, alGet k.attrs "id" = some u) :
    ∃ e3 k3,
      MEntity.fromBackend e (.vobj [("kind", .vint 7)])
          [("animal_kind", [[("id", .vint 7), ("name", .vstr "Dog")]])]
          [("kind", "animal_kind")]
        = some e3
      ∧ alGet e3.rels "kind" = some (.model k3)
      ∧ attrLookup k3 "name" = .vstr "Dog" := by
  obtain ⟨w, hw⟩ := hname
  obtain ⟨u, hu⟩ := hid
  set R : List Obj := [[("id", .vint 7), ("name", .vstr "Dog")]] with hR
  set k1 : MEntity := k.setRepo R with hk1
  set e2 : MEntity := e.setRel "kind" (.model k1) with he2
  have hattach : attachRepos e [("kind", "animal_kind")] [("animal_kind", R)]
      = some e2 := by
    simp only [attachRepos, alGet]
    rw [show splitDots (snakeToCamel "kind") = ["kind"] from rfl]
    simp only [pathResolve, hrel, setRelRepoAtPath, MRel.setRepository]
    simp
  have hfind : findById R (.vint 7) = some [("id", .vint 7), ("name", .vstr "Dog")] := rfl
  have hparse : MEntity.parse e2 (.vobj [("kind", .vint 7)])
      = some (e2.setRel "kind" (.model ((k1.setAttr "id" (.vint 7)).setAttr "name" (.vstr "Dog")))) := by
    simp only [MEntity.parse, parseFields, parseFieldsH]
    rw [show snakeToCamel "kind" = "kind" from rfl]
    rw [he2, MEntity_setRel_attrs]
    simp only [hattr]
    rw [MEntity_setRel_rels, alGet_alSet_self]
    rw [MEntity_mdepth_eq]
    simp only [parseRelValN, isPlainObjectV, headIsPlainObject, Bool.or_self,
      Bool.false_eq_true, if_false]
    simp only [addFromRepoH, hk1, MEntity_setRepo_repo, hfind]
    simp only [parseFieldsH]
    rw [show snakeToCamel "id" = "id" from rfl, show snakeToCamel "name" = "name" from rfl]
    rw [MEntity_setRepo_attrs]
    simp only [hu]
    rw [MEntity_setAttr_attrs, MEntity_setRepo_attrs,
      alGet_alSet_ne _ _ _ _ (by decide : ("name" : String) ≠ "id")]
    simp only [hw]
    rfl
  refine ⟨e2.setRel "kind" (.model ((k1.setAttr "id" (.vint 7)).setAttr "name" (.vstr "Dog"))),
    (k1.setAttr "id" (.vint 7)).setAttr "name" (.vstr "Dog"), ?_, ?_, ?_⟩
  · simp only [MEntity.fromBackend, hattach]
    exact hparse
  · rw [MEntity_setRel_rels, alGet_alSet_self]
  · simp only [attrLookup, MEntity_setAttr_attrs, alGet_alSet_self]


/-- Witness for C2 on the concrete animal and kind entities. -/
theorem c2_repository_resolution_witness :
    (alGet demoAnimal.rels "kind" = some (.model demoKind)
      ∧ alGet demoAnimal.attrs "kind" = none
      ∧ alGet demoKind.attrs "name" = some .vnull
      ∧ alGet demoKind.attrs "id" = some .vnull)
    ∧ ∃ e3 k3,
        MEntity.fromBackend demoAnimal (.vobj [("kind", .vint 7)])
            [("animal_kind", [[("id", .vint 7), ("name", .vstr "Dog")]])]
            [("kind", "animal_kind")]
          = some e3
        ∧ alGet e3.rels "kind" = some (.model k3)
        ∧ attrLookup k3 "name" = .vstr "Dog" :=
  ⟨⟨rfl, rfl, rfl, rfl⟩,
   c2_repository_resolution demoAnimal demoKind rfl rfl ⟨.vnull, rfl⟩ ⟨.vnull, rfl⟩⟩

theorem c1_step1 (pk : String) (aE : List (String × Value)) (rl : List (String × MRel)) (rp : List Obj) (c : Nat)
    (h : alGet (MEntity.toBackend (.mk pk aE rl rp)) pk = some .vnull) :
    MEntity.toBackendAll (.mk pk aE rl rp) .vundefined c
      = relsLoopTBA rl
          (alSet (MEntity.toBackend (.mk pk aE rl rp)) pk (.vint (-(Int.ofNat (c + 1)))))
          [] (c + 1) := by
  simp only [MEntity.toBackendAll]
  rw [show truthy .vundefined = false from rfl]
  simp only [Bool.false_eq_true, if_false, h, generateNegativeId, uniqueIdNext]

theorem c1_step2 (rn : String) (s : MStore) (data : Obj)
    (racc : List (String × List Obj)) (c : Nat) (l : List Value)
    (h : alGet data (snakeCase rn) = some (.vlist l)) :
    relsLoopTBA [(rn, .store s)] data racc c
      = (⟨[alSet data (snakeCase rn) (.vlist (fillNulls l c).1)],
          relMapMergeAll
            (alSet racc (snakeCase rn)
              (MStore.toBackendAll s (.vlist (fillNulls l c).1) (fillNulls l c).2).1.data)
            (MStore.toBackendAll s (.vlist (fillNulls l c).1) (fillNulls l c).2).1.relations⟩,
         (MStore.toBackendAll s (.vlist (fillNulls l c).1) (fillNulls l c).2).2) := by
  conv_lhs => rw [relsLoopTBA]
  simp only [h, relTBA]
  conv_lhs => rw [relsLoopTBA]

theorem c1_member (pkM : String) (aM : List (String × Value)) (rpM : List Obj)
    (idv : Value) (c : Nat) (h : truthy idv = true) :
    MEntity.toBackendAll (.mk pkM aM [] rpM) idv c
      = (⟨[alSet (MEntity.toBackend (.mk pkM aM [] rpM)) pkM idv], []⟩, c) := by
  simp only [MEntity.toBackendAll, h, if_true]
  rw [relsLoopTBA]

theorem c1_store (pkS : String) (tmpl : MEntity) (rpS : List Obj)
    (nr : List (String × List Obj))
    (pk1 pk2 pk3 : String) (a1 a2 a3 : List (String × Value)) (rp1 rp2 rp3 : List Obj)
    (v1 v2 v3 : Value) (c : Nat)
    (h1 : truthy v1 = true) (h2 : truthy v2 = true) (h3 : truthy v3 = true) :
    MStore.toBackendAll
        (.mk pkS tmpl [.mk pk1 a1 [] rp1, .mk pk2 a2 [] rp2, .mk pk3 a3 [] rp3] rpS nr)
        (.vlist [v1, v2, v3]) c
      = (⟨[alSet (MEntity.toBackend (.mk pk1 a1 [] rp1)) pk1 v1,
           alSet (MEntity.toBackend (.mk pk2 a2 [] rp2)) pk2 v2,
           alSet (MEntity.toBackend (.mk pk3 a3 [] rp3)) pk3 v3], []⟩, c) := by
  simp only [MStore.toBackendAll]
  simp only [storeLoopTBA, List.get?]
  rw [c1_member pk1 a1 rp1 v1 c h1, c1_member pk2 a2 rp2 v2 c h2,
    c1_member pk3 a3 rp3 v3 c h3]
  simp [relMapMergeAll]

theorem c1_fillNulls (c : Nat) :
    fillNulls [.vnull, .vnull, .vnull] (c + 1)
      = ([.vint (-(Int.ofNat (c + 2))), .vint (-(Int.ofNat (c + 3))),
          .vint (-(Int.ofNat (c + 4)))], c + 4) := by
  simp [fillNulls, generateNegativeId, uniqueIdNext]
  omega

/-- C1: graph flatten consistency.  For an unsaved entity (backend record
primary key null) whose single active relation is a plural relation
holding exactly three members, none of which has a primary key set and
none of which has relations of its own, toBackendAll with no argument
yields exactly one record (the entity's own, whose primary key is the
synthesized negative placeholder -(c+1) for uniqueId counter c), exactly
one relation bucket holding exactly three member records whose primary
keys are the three synthesized placeholders -(c+2), -(c+3), -(c+4) in
member order, and the primary record's reference field holds exactly that
list in the same order; all four placeholders are negative and pairwise
distinct. -/
theorem c1_graph_flatten (pk pkS rn : String)
    (aE : List (String × Value)) (rpE rpS : List Obj)
    (tmpl : MEntity) (nr : List (String × List Obj))
    (pk1 pk2 pk3 : String) (a1 a2 a3 : List (String × Value))
    (rp1 rp2 rp3 : List Obj) (c : Nat)
    (hm1 : alGet a1 pkS = some .vnull)
    (hm2 : alGet a2 pkS = some .vnull)
    (hm3 : alGet a3 pkS = some .vnull)
    (hpkN : alGet (MEntity.toBackend (.mk pk aE
        [(rn, .store (.mk pkS tmpl
          [.mk pk1 a1 [] rp1, .mk pk2 a2 [] rp2, .mk pk3 a3 [] rp3] rpS nr))]
        rpE)) pk = some .vnull)
    (hne : snakeCase rn ≠ pk) :
    ∃ d r1 r2 r3,
      MEntity.toBackendAll (.mk pk aE
          [(rn, .store (.mk pkS tmpl
            [.mk pk1 a1 [] rp1, .mk pk2 a2 [] rp2, .mk pk3 a3 [] rp3] rpS nr))]
          rpE) .vundefined c
        = (⟨[d], [(snakeCase rn, [r1, r2, r3])]⟩, c + 4)
      ∧ alGet d pk = some (.vint (-(Int.ofNat (c + 1))))
      ∧ alGet d (snakeCase rn)
          = some (.vlist [.vint (-(Int.ofNat (c + 2))), .vint (-(Int.ofNat (c + 3))),
              .vint (-(Int.ofNat (c + 4)))])
      ∧ alGet r1 pk1 = some (.vint (-(Int.ofNat (c + 2))))
      ∧ alGet r2 pk2 = some (.vint (-(Int.ofNat (c + 3))))
      ∧ alGet r3 pk3 = some (.vint (-(Int.ofNat (c + 4))))
      ∧ (-(Int.ofNat (c + 1)) < 0 ∧ -(Int.ofNat (c + 2)) < 0
          ∧ -(Int.ofNat (c + 3)) < 0 ∧ -(Int.ofNat (c + 4)) < 0)
      ∧ (-(Int.ofNat (c + 2)) ≠ -(Int.ofNat (c + 3))
          ∧ -(Int.ofNat (c + 2)) ≠ -(Int.ofNat (c + 4))
          ∧ -(Int.ofNat (c + 3)) ≠ -(Int.ofNat (c + 4))) := by
  set M1 : MEntity := .mk pk1 a1 [] rp1 with hM1
  set M2 : MEntity := .mk pk2 a2 [] rp2 with hM2
  set M3 : MEntity := .mk pk3 a3 [] rp3 with hM3
  set S : MStore := .mk pkS tmpl [M1, M2, M3] rpS nr with hS
  set E : MEntity := .mk pk aE [(rn, .store S)] rpE with hE
  have ht1 : truthy (.vint (-(Int.ofNat (c + 2)))) = true := by
    simp [truthy, Int.ofNat_eq_natCast]
    omega
  have ht2 : truthy (.vint (-(Int.ofNat (c + 3)))) = true := by
    simp [truthy, Int.ofNat_eq_natCast]
    omega
  have ht3 : truthy (.vint (-(Int.ofNat (c + 4)))) = true := by
    simp [truthy, Int.ofNat_eq_natCast]
    omega
  have htbE : alGet (MEntity.toBackend E) (snakeCase rn)
      = some (.vlist [.vnull, .vnull, .vnull]) := by
    rw [hE]
    simp only [MEntity.toBackend, MEntity.attrs, MEntity.rels, List.foldl_cons,
      List.foldl_nil]
    rw [hS]
    simp only [mapByPrimaryKey, MStore.models, MStore.pk, List.map, hM1, hM2, hM3,
      attrLookup, MEntity.attrs, hm1, hm2, hm3]
    exact alGet_alSet_self _ _ _
  have hgetD1 : alGet (alSet (MEntity.toBackend E) pk (.vint (-(Int.ofNat (c + 1)))))
      (snakeCase rn) = some (.vlist [.vnull, .vnull, .vnull]) := by
    rw [alGet_alSet_ne _ _ _ _ hne]
    exact htbE
  have hmain : MEntity.toBackendAll E .vundefined c
      = (BOut.mk
          [alSet (alSet (MEntity.toBackend E) pk (.vint (-(Int.ofNat (c + 1)))))
            (snakeCase rn)
            (.vlist [.vint (-(Int.ofNat (c + 2))), .vint (-(Int.ofNat (c + 3))),
              .vint (-(Int.ofNat (c + 4)))])]
          [(snakeCase rn,
            [alSet (MEntity.toBackend M1) pk1 (.vint (-(Int.ofNat (c + 2)))),
             alSet (MEntity.toBackend M2) pk2 (.vint (-(Int.ofNat (c + 3)))),
             alSet (MEntity.toBackend M3) pk3 (.vint (-(Int.ofNat (c + 4))))])],
         c + 4) := by
    rw [hE]
    rw [c1_step1 pk aE [(rn, .store S)] rpE c (by rw [← hE]; exact hpkN)]
    rw [← hE]
    rw [c1_step2 rn S _ [] (c + 1) _ hgetD1]
    rw [c1_fillNulls c]
    rw [hS, hM1, hM2, hM3]
    rw [c1_store pkS tmpl rpS nr pk1 pk2 pk3 a1 a2 a3 rp1 rp2 rp3 _ _ _ (c + 4)
      ht1 ht2 ht3]
    simp [relMapMergeAll, alSet]
  refine ⟨_, _, _, _, hmain, ?_, ?_, ?_, ?_, ?_, ?_, ?_⟩
  · rw [alGet_alSet_ne _ _ _ _ (Ne.symm hne), alGet_alSet_self]
  · exact alGet_alSet_self _ _ _
  · exact alGet_alSet_self _ _ _
  · exact alGet_alSet_self _ _ _
  · exact alGet_alSet_self _ _ _
  · refine ⟨?_, ?_, ?_, ?_⟩ <;> (simp only [Int.ofNat_eq_natCast]; omega)
  · refine ⟨?_, ?_, ?_⟩ <;> (simp only [Int.ofNat_eq_natCast]; omega)

/-- Witness for C1 on the concrete unsaved owner with three new members
and uniqueId counter 0. -/
theorem c1_graph_flatten_witness :
    (alGet [("id", Value.vnull), ("name", Value.vstr "a")] "id" = some Value.vnull
      ∧ alGet (MEntity.toBackend (.mk "id"
          [("id", Value.vnull), ("title", Value.vstr "x")]
          [("members", .store (.mk "id" (demoMember "t")
            [.mk "id" [("id", Value.vnull), ("name", Value.vstr "a")] [] [],
             .mk "id" [("id", Value.vnull), ("name", Value.vstr "b")] [] [],
             .mk "id" [("id", Value.vnull), ("name", Value.vstr "c")] [] []] [] []))]
          [])) "id" = some Value.vnull
      ∧ snakeCase "members" ≠ "id")
    ∧ ∃ d r1 r2 r3,
        MEntity.toBackendAll (.mk "id"
            [("id", Value.vnull), ("title", Value.vstr "x")]
            [("members", .store (.mk "id" (demoMember "t")
              [.mk "id" [("id", Value.vnull), ("name", Value.vstr "a")] [] [],
               .mk "id" [("id", Value.vnull), ("name", Value.vstr "b")] [] [],
               .mk "id" [("id", Value.vnull), ("name", Value.vstr "c")] [] []] [] []))]
            []) .vundefined 0
          = (⟨[d], [(snakeCase "members", [r1, r2, r3])]⟩, 0 + 4)
        ∧ alGet d "id" = some (.vint (-(Int.ofNat (0 + 1))))
        ∧ alGet d (snakeCase "members")
            = some (.vlist [.vint (-(Int.ofNat (0 + 2))), .vint (-(Int.ofNat (0 + 3))),
                .vint (-(Int.ofNat (0 + 4)))])
        ∧ alGet r1 "id" = some (.vint (-(Int.ofNat (0 + 2))))
        ∧ alGet r2 "id" = some (.vint (-(Int.ofNat (0 + 3))))
        ∧ alGet r3 "id" = some (.vint (-(Int.ofNat (0 + 4))))
        ∧ (-(Int.ofNat (0 + 1)) < 0 ∧ -(Int.ofNat (0 + 2)) < 0
            ∧ -(Int.ofNat (0 + 3)) < 0 ∧ -(Int.ofNat (0 + 4)) < 0)
        ∧ (-(Int.ofNat (0 + 2)) ≠ -(Int.ofNat (0 + 3))
            ∧ -(Int.ofNat (0 + 2)) ≠ -(Int.ofNat (0 + 4))
            ∧ -(Int.ofNat (0 + 3)) ≠ -(Int.ofNat (0 + 4))) :=
  ⟨⟨rfl, rfl, by decide⟩,
   c1_graph_flatten "id" "id" "members"
     [("id", .vnull), ("title", .vstr "x")] [] [] (demoMember "t") []
     "id" "id" "id"
     [("id", .vnull), ("name", .vstr "a")] [("id", .vnull), ("name", .vstr "b")]
     [("id", .vnull), ("name", .vstr "c")] [] [] [] 0 rfl rfl rfl rfl (by decide)⟩
